import Mathlib

/-!
Verification development for the `trade_logo_verifier` repository.

The development shallowly embeds the two source files:

* `src/main.py` — `detect_blobs` (blob statistics, edge-margin filtering,
  size-outlier flagging, returned blob records), configuration lookup and the
  construction-time part of `main`.
* `src/Focus.py` — `is_camera_in_focus` (grayscale conversion, Laplacian
  variance, focus verdict) and `wait_for_focus` (the acquisition loop with its
  status overlay and its exhaustion/cancellation exits).

Machine reals (Python floats / numpy float64) are embedded as exact rationals;
`int(...)` truncation is embedded as truncation toward zero.  OpenCV library
calls are embedded from their documented semantics where the claims depend on
them (`cvtColor` channel checking, `Laplacian` with the 3×3 kernel and
reflect-101 borders, numpy population variance); the blob detector itself is an
abstract parameter producing keypoints, since every claim about `detect_blobs`
quantifies over the keypoint set.
-/

namespace TradeLogoVerifier

/-- Python `int(x)` on a float: truncation toward zero. -/
def pyInt (q : ℚ) : ℤ := if 0 ≤ q then ⌊q⌋ else ⌈q⌉

/-- `np.mean` over a list, with the source's `if radii else 0` guard folded in
(the source never calls `np.mean` on an empty list). -/
def popMean (xs : List ℚ) : ℚ := if xs = [] then 0 else xs.sum / xs.length

/-- Square of `np.std` (population variance): mean squared deviation from the
mean, with the source's emptiness guard folded in.  The source compares
`abs (r - mean) > 2 * std` with `std = sqrt(popVar)`; since both sides are
nonnegative this is equivalent to comparing squares, which is how the flag is
expressed below over exact rationals. -/
def popVar (xs : List ℚ) : ℚ := popMean (xs.map (fun x => (x - popMean xs) ^ 2))

/-- An OpenCV keypoint as consumed by `detect_blobs`: `kp.pt = (ptx, pty)` and
`kp.size` (diameter). -/
structure KeyPoint where
  ptx : ℚ
  pty : ℚ
  size : ℚ
deriving DecidableEq, Repr

/-- A returned blob record `{'pt': kp.pt, 'size': kp.size}` (main.py line 75).
Note that the record holds only the point and the size. -/
structure Blob where
  ptx : ℚ
  pty : ℚ
  size : ℚ
deriving DecidableEq, Repr

/-- The record appended to `blobs` for a retained keypoint. -/
def blobOf (kp : KeyPoint) : Blob := ⟨kp.ptx, kp.pty, kp.size⟩

/-- `radii = [kp.size / 2 for kp in keypoints]` (main.py line 64). -/
def radiiOf (kps : List KeyPoint) : List ℚ := kps.map (fun kp => kp.size / 2)

/-- The edge-margin test of main.py lines 70–74, on the truncated values
`x = int(kp.pt[0])`, `y = int(kp.pt[1])`, `r = int(kp.size / 2)`:
`x - r > margin and x + r < w - margin and y - r > margin and y + r < h - margin`. -/
def edgePass (kp : KeyPoint) (h w : ℤ) (margin : ℚ) : Bool :=
  decide (((pyInt kp.ptx - pyInt (kp.size / 2) : ℤ) : ℚ) > margin) &&
  decide (((pyInt kp.ptx + pyInt (kp.size / 2) : ℤ) : ℚ) < (w : ℚ) - margin) &&
  decide (((pyInt kp.pty - pyInt (kp.size / 2) : ℤ) : ℚ) > margin) &&
  decide (((pyInt kp.pty + pyInt (kp.size / 2) : ℤ) : ℚ) < (h : ℚ) - margin)

/-- The size-outlier test of main.py line 76,
`std_radius > 0 and abs(r - mean_radius) > 2 * std_radius`, with
`r = int(kp.size / 2)`; expressed on the variance `v = std_radius ^ 2`
(both comparisons squared, equivalent since both sides are nonnegative). -/
def sizeFlag (kp : KeyPoint) (m v : ℚ) : Bool :=
  decide (0 < v) && decide (((pyInt (kp.size / 2) : ℚ) - m) ^ 2 > 4 * v)

/-- The loop of main.py lines 69–83: for each keypoint in order, if it passes
the edge test, append its record together with the red/green flagging decision
taken for it (the circle colour of lines 76–81); otherwise drop it.  `m`, `v`
are the mean and variance computed before the loop. -/
def detectLoop (h w : ℤ) (margin m v : ℚ) : List KeyPoint → List (Blob × Bool)
  | [] => []
  | kp :: rest =>
    if edgePass kp h w margin then
      (blobOf kp, sizeFlag kp m v) :: detectLoop h w margin m v rest
    else
      detectLoop h w margin m v rest

/-- main.py lines 62–83 with the mean and standard deviation computed, as in
the source, over ALL detected keypoints (lines 64–66) before the edge filter
runs: the retained records paired with their flagging decisions. -/
def detectEntries (kps : List KeyPoint) (h w : ℤ) (margin : ℚ) : List (Blob × Bool) :=
  detectLoop h w margin (popMean (radiiOf kps)) (popVar (radiiOf kps)) kps

/-- The value `detect_blobs` returns (main.py line 85): the retained records
without any flags. -/
def detect_blobs (kps : List KeyPoint) (h w : ℤ) (margin : ℚ) : List Blob :=
  (detectEntries kps h w margin).map Prod.fst

/-- The spec-side classifier, following the spec's words for the refinement
claim about population statistics: "OutlierClassifier consumes the
edge-filtered blob set; computes population statistics (mean/standard
deviation of blob radius)" — i.e. the mean and variance are taken over the
candidates that survived the edge filter, not over all keypoints. -/
def classifySpecStats (kps : List KeyPoint) (h w : ℤ) (margin : ℚ) : List (Blob × Bool) :=
  let kept := kps.filter (fun kp => edgePass kp h w margin)
  (kept).map (fun kp => (blobOf kp, sizeFlag kp (popMean (radiiOf kept)) (popVar (radiiOf kept))))

/-- Errors the Python runtime can raise in the embedded fragments. -/
inductive PyErr where
  /-- `TypeError`, e.g. assigning `None` to a float field of
  `cv2.SimpleBlobDetector_Params`. -/
  | typeError
  /-- `cv2.error`: wrong number of channels for a colour conversion. -/
  | invalidChannels
  /-- `cv2.error`: empty source image. -/
  | emptySrc
deriving DecidableEq, Repr

/-- A JSON tray-profile configuration restricted to its numeric fields, as a
key/value association (the embedding of the dict `load_tray_config` returns). -/
def PyConfig := List (String × ℚ)

/-- Python `dict.get(key)`: `None` when the key is absent. -/
def cfgGet (c : PyConfig) (k : String) : Option ℚ :=
  match c.find? (fun p => p.1 = k) with
  | some p => some p.2
  | none => none

/-- Python `dict.get(key, default)`. -/
def cfgGetD (c : PyConfig) (k : String) (d : ℚ) : ℚ :=
  match cfgGet c k with
  | some v => v
  | none => d

/-- The detector parameters that depend on the configuration
(main.py lines 55–56). -/
structure BlobParams where
  minArea : ℚ
  maxArea : ℚ
deriving DecidableEq, Repr

/-- The parameter assignments `params.minArea = min_area` /
`params.maxArea = max_area` (main.py lines 55–56): the cv2 binding raises
`TypeError` when `None` (from a missing `blob_min_area` key) is assigned to the
float field `minArea`. -/
def setParams (minArea : Option ℚ) (maxArea : ℚ) : Except PyErr BlobParams :=
  match minArea with
  | none => .error .typeError
  | some a => .ok ⟨a, maxArea⟩

/-- `detect_blobs(image, config)` (main.py lines 37–85) including its
configuration lookups (lines 39–41) and detector-parameter setup, with the
cv2 blob detector abstracted as a function `detector` from the
parameters to the keypoint list it finds in the thresholded image, and the
image dimensions `h`, `w` (line 62) given directly. -/
def detect_blobs_run (detector : BlobParams → List KeyPoint) (h w : ℤ)
    (config : PyConfig) : Except PyErr (List Blob) := do
  let margin := cfgGetD config "blob_margin" 10
  let minArea := cfgGet config "blob_min_area"
  let maxArea := cfgGetD config "blob_max_area" 100000
  let params ← setParams minArea maxArea
  let kps := detector params
  pure (detect_blobs kps h w margin)

/-- The construction-time part of `main` (main.py lines 93–94): after the
configuration is loaded, the only field consumed before the scan loop is
`expected_count`, with a default — no numeric field is validated and nothing
can fail here. -/
def main_setup (config : PyConfig) : ℚ := cfgGetD config "expected_count" 0

/-- A single-channel image: rows of intensity values. -/
abbrev Gray := List (List ℚ)

/-- A frame as a numpy array: rows × columns × channels. -/
abbrev Img := List (List (List ℚ))

/-- The channel count of a frame (the length of the channel axis). -/
def imgChannels (a : Img) : ℕ := ((a.headD []).headD []).length

/-- The BGR→gray formula of `cv2.cvtColor(..., COLOR_BGR2GRAY)`:
`0.299 R + 0.587 G + 0.114 B`, channels stored in B,G,R order. -/
def bgr2grayPix (p : List ℚ) : ℚ :=
  (299 / 1000) * p.getD 2 0 + (587 / 1000) * p.getD 1 0 + (114 / 1000) * p.getD 0 0

/-- `cv2.cvtColor(image, cv2.COLOR_BGR2GRAY)`: raises `cv2.error` on an empty
source and on a source whose channel count is not 3 or 4 (in particular on an
already single-channel image); otherwise converts every pixel. -/
def cvtColorBGR2GRAY (a : Img) : Except PyErr Gray :=
  if a.length = 0 ∨ (a.headD []).length = 0 then .error .emptySrc
  else if imgChannels a = 3 ∨ imgChannels a = 4 then
    .ok (a.map (fun row => row.map bgr2grayPix))
  else .error .invalidChannels

/-- OpenCV `BORDER_REFLECT_101` index folding (`borderInterpolate`), which
returns index 0 for a length-1 axis. -/
def reflect101 (n : ℕ) (i : ℤ) : ℕ :=
  if n ≤ 1 then 0
  else if i < 0 then (-i).toNat
  else if (n : ℤ) ≤ i then (2 * ((n : ℤ) - 1) - i).toNat
  else i.toNat

/-- Grid access with reflect-101 border handling. -/
def gAt (g : Gray) (h w : ℕ) (i j : ℤ) : ℚ :=
  (g.getD (reflect101 h i) []).getD (reflect101 w j) 0

/-- `cv2.Laplacian(gray, cv2.CV_64F)` with the default aperture: convolution
with the 3×3 kernel `[[0,1,0],[1,-4,1],[0,1,0]]` at floating-point precision,
reflect-101 borders, output of the same dimensions. -/
def laplacian (g : Gray) : Gray :=
  (List.range g.length).map (fun i =>
    (List.range (g.headD []).length).map (fun j =>
      gAt g g.length (g.headD []).length ((i : ℤ) - 1) (j : ℤ) +
      gAt g g.length (g.headD []).length ((i : ℤ) + 1) (j : ℤ) +
      gAt g g.length (g.headD []).length (i : ℤ) ((j : ℤ) - 1) +
      gAt g g.length (g.headD []).length (i : ℤ) ((j : ℤ) + 1) -
      4 * gAt g g.length (g.headD []).length (i : ℤ) (j : ℤ)))

/-- `cv2.Laplacian(gray, cv2.CV_64F).var()`: the population variance of all
Laplacian response values. -/
def lapVar (g : Gray) : ℚ := popVar (laplacian g).flatten

/-- `is_camera_in_focus(image, threshold)` (Focus.py lines 18–30): convert to
gray, compute the Laplacian variance, return `(variance > threshold, variance)`.
The grayscale conversion's channel error propagates as an exception. -/
def is_camera_in_focus (image : Img) (threshold : ℚ) : Except PyErr (Bool × ℚ) :=
  match cvtColorBGR2GRAY image with
  | .error e => .error e
  | .ok gray => .ok (decide (lapVar gray > threshold), lapVar gray)

/-- The in-place `cv2.putText(frame, ..., (10, 30), ..., color, 2)` call of
Focus.py lines 46–47, which rasterizes the status text into the frame's own
pixel buffer.  Glyph rasterization is abstracted: the model overwrites the
pixel at the text origin — column 10 of row 30 — with the text colour, and,
like `putText`, leaves a frame too small to contain that position unchanged
(the text is clipped). -/
def putTextModel (img : Img) (color : List ℚ) : Img :=
  img.set 30 ((img.getD 30 []).set 10 color)

/-- `wait_for_focus` (Focus.py lines 32–57), with the camera modelled as the
finite list of frames its successive `read()` calls produce (exhaustion =
`ret` false) and the successive masked `cv2.waitKey` results as a list of key
codes (255 once exhausted, i.e. no key pressed).  Each acquired frame is
annotated in place via `putText` before the verdict is acted on; on an
in-focus verdict the (annotated) frame is returned, on exhaustion or on the
ESC key (27) the loop breaks and `None` is returned. -/
def wait_for_focus (threshold : ℚ) : List Img → List ℕ → Except PyErr (Option Img)
  | [], _ => .ok none
  | f :: fs, keys =>
    match is_camera_in_focus f threshold with
    | .error e => .error e
    | .ok r =>
      if r.1 then
        .ok (some (putTextModel f (if r.1 then [0, 255, 0] else [0, 0, 255])))
      else if (keys.headD 255) % 256 = 27 then
        .ok none
      else
        wait_for_focus threshold fs keys.tail

/-! ### Concrete inputs used to settle the claims -/

/-- Nine radius-10 keypoints and one radius-13 keypoint well inside a 200×200
frame, plus one radius-100 keypoint whose bounding circle reaches the border
(it is rejected by the edge filter with the default margin 10). -/
def kpsMixed : List KeyPoint :=
  [⟨40, 40, 20⟩, ⟨80, 40, 20⟩, ⟨120, 40, 20⟩, ⟨160, 40, 20⟩,
   ⟨40, 80, 20⟩, ⟨80, 80, 20⟩, ⟨120, 80, 20⟩, ⟨160, 80, 20⟩,
   ⟨40, 120, 20⟩, ⟨100, 50, 26⟩, ⟨100, 100, 200⟩]

/-- The spec's scenario: four blobs of radius 10 and one blob of radius 40 at
the centre of a 200×200 frame. -/
def kpsScene : List KeyPoint :=
  [⟨100, 100, 80⟩, ⟨30, 30, 20⟩, ⟨30, 170, 20⟩, ⟨170, 30, 20⟩, ⟨170, 170, 20⟩]

/-- Two interior keypoints with sizes 20.8 and 21.2 (radii 10.4 and 10.6). -/
def kpsPair : List KeyPoint := [⟨50, 50, 104/5⟩, ⟨120, 120, 106/5⟩]

/-- The first keypoint of `kpsPair` alone. -/
def kpsSingle : List KeyPoint := [⟨50, 50, 104/5⟩]

/-- Two interior keypoints with sizes 10.8 and 11.2 (radii 5.4 and 5.6). -/
def kpsClose : List KeyPoint := [⟨50, 50, 54/5⟩, ⟨120, 120, 56/5⟩]

/-- Two interior keypoints with radii 1 and 7 (mean 4, variance 9). -/
def kpsSpread : List KeyPoint := [⟨50, 50, 2⟩, ⟨120, 120, 14⟩]

/-- Two interior keypoints with identical radius 10. -/
def kpsEqual : List KeyPoint := [⟨50, 50, 20⟩, ⟨120, 120, 20⟩]

/-- A 2×2 constant 3-channel frame (zero Laplacian variance). -/
def constImg2 : Img := [[[5, 5, 5], [5, 5, 5]], [[5, 5, 5], [5, 5, 5]]]

/-- A 1×1 single-channel frame. -/
def oneChanImg : Img := [[[5]]]

/-- A 31×11 3-channel frame, black except one white pixel: a sharp spike whose
Laplacian variance 1300500/341 is far above the default threshold 9, and whose
pixel at row 30, column 10 is black (so the status overlay changes it). -/
def sharpImg : Img :=
  (List.range 31).map (fun i => (List.range 11).map (fun j =>
    if i = 15 ∧ j = 5 then [255, 255, 255] else [0, 0, 0]))

/-! ### Helper lemmas -/

/-- The append loop over keypoints is the filter of the edge test followed by
decoration with the record and the flag. -/
theorem detectLoop_eq (h w : ℤ) (margin m v : ℚ) (kps : List KeyPoint) :
    detectLoop h w margin m v kps =
      (kps.filter (fun kp => edgePass kp h w margin)).map
        (fun kp => (blobOf kp, sizeFlag kp m v)) := by
  induction kps with
  | nil => rfl
  | cons kp rest ih =>
    by_cases hkp : edgePass kp h w margin = true
    · simp [detectLoop, hkp, ih, List.filter_cons]
    · simp [detectLoop, hkp, ih, List.filter_cons]

/-- Membership in the decorated output comes from a retained keypoint. -/
theorem mem_detectEntries (kps : List KeyPoint) (h w : ℤ) (margin : ℚ)
    (e : Blob × Bool) (he : e ∈ detectEntries kps h w margin) :
    ∃ kp ∈ kps, edgePass kp h w margin = true ∧
      e = (blobOf kp, sizeFlag kp (popMean (radiiOf kps)) (popVar (radiiOf kps))) := by
  rw [detectEntries, detectLoop_eq] at he
  obtain ⟨kp, hkp, hkpe⟩ := List.mem_map.mp he
  obtain ⟨hmem, hpass⟩ := List.mem_filter.mp hkp
  exact ⟨kp, hmem, hpass, hkpe.symm⟩

/-- The squared comparisons of `sizeFlag` say exactly `std > 0` and
`|r - mean| > 2 * std` for the nonnegative square root `s` of the variance. -/
theorem sq_flag_iff (d s : ℚ) (hs : 0 ≤ s) :
    (0 < s ^ 2 ∧ d ^ 2 > 4 * s ^ 2) ↔ (0 < s ∧ |d| > 2 * s) := by
  constructor
  · rintro ⟨h1, h2⟩
    have hs' : 0 < s := lt_of_le_of_ne hs (by rintro rfl; simp at h1)
    refine ⟨hs', ?_⟩
    nlinarith [sq_abs d, abs_nonneg d]
  · rintro ⟨h1, h2⟩
    refine ⟨by positivity, ?_⟩
    nlinarith [sq_abs d, abs_nonneg d]

/-- The population variance of a constant list is zero. -/
theorem popVar_const (xs : List ℚ) (hxs : ∀ a ∈ xs, ∀ b ∈ xs, a = b) :
    popVar xs = 0 := by
  by_cases hne : xs = []
  · subst hne; rfl
  · obtain ⟨y, hy⟩ := List.exists_mem_of_ne_nil xs hne
    have hsum : xs.sum = xs.length • y :=
      List.sum_eq_card_nsmul xs y (fun x hx => hxs x hx y hy)
    have hlen : (xs.length : ℚ) ≠ 0 :=
      Nat.cast_ne_zero.mpr (List.length_pos.mpr hne).ne'
    have hmean : popMean xs = y := by
      rw [popMean, if_neg hne, hsum, nsmul_eq_mul]
      field_simp
    have hzero : ∀ z ∈ xs.map (fun x => (x - popMean xs) ^ 2), z = 0 := by
      intro z hz
      obtain ⟨x, hx, hxz⟩ := List.mem_map.mp hz
      rw [← hxz, hmean, hxs x hx y hy]
      ring
    have hmap : xs.map (fun x => (x - popMean xs) ^ 2) ≠ [] := by
      simpa using hne
    rw [popVar, popMean, if_neg hmap, List.sum_eq_card_nsmul _ 0 hzero]
    simp

/-! ### Claim theorems -/

/-- C1 (counterexample).  The claim says `meanRadius` and `stdRadius` are
computed over exactly the edge-filtered candidate set and that no edge-rejected
candidate contributes.  On `kpsMixed` (margin 10, 200×200 frame) the mean the
code uses differs from the mean over the edge-filtered set, and the flags
produced differ from those of the spec's filter-then-classify pipeline: the
edge-rejected radius-100 candidate inflates the statistics so that the
radius-13 candidate is no longer flagged. -/
theorem c1_counterexample :
    popMean (radiiOf kpsMixed) ≠
      popMean (radiiOf (kpsMixed.filter (fun kp => edgePass kp 200 200 10))) ∧
    detectEntries kpsMixed 200 200 10 ≠ classifySpecStats kpsMixed 200 200 10 :=
  ⟨by with_unfolding_all decide, by with_unfolding_all decide⟩

/-- C1 (amended).  The statistics are computed over all detected keypoints
before the edge filter runs: the code's loop equals decorating EVERY keypoint
with a flag based on the full-population mean and variance and only then
discarding the edge-touching ones, so edge-rejected candidates do contribute to
the statistics used for flagging. -/
theorem c1_amended (kps : List KeyPoint) (h w : ℤ) (margin : ℚ) :
    detectEntries kps h w margin =
      (kps.map (fun kp =>
        (blobOf kp, sizeFlag kp (popMean (radiiOf kps)) (popVar (radiiOf kps))))).filter
        (fun e => edgePass ⟨e.1.ptx, e.1.pty, e.1.size⟩ h w margin) := by
  rw [detectEntries, detectLoop_eq]
  generalize popMean (radiiOf kps) = m
  generalize popVar (radiiOf kps) = v
  induction kps with
  | nil => rfl
  | cons kp rest ih =>
    simp only [List.filter_cons, List.map_cons]
    by_cases hkp : edgePass kp h w margin = true
    · have hkp' : edgePass ⟨(blobOf kp).ptx, (blobOf kp).pty, (blobOf kp).size⟩ h w margin
          = true := hkp
      simp [hkp, hkp', ih]
    · have hkp' : ¬ edgePass ⟨(blobOf kp).ptx, (blobOf kp).pty, (blobOf kp).size⟩ h w margin
          = true := hkp
      simp [hkp, hkp', ih]

/-- C2 (counterexample).  The claim says every returned blob record carries its
classification flags.  No function can read a flag off a returned record: the
record `⟨50, 50, 104/5⟩` is returned flagged when detected together with a
slightly larger blob (`kpsPair`) and unflagged when detected alone
(`kpsSingle`), so the returned value does not determine the flag. -/
theorem c2_counterexample :
    ¬ ∃ f : Blob → Bool, ∀ (kps : List KeyPoint) (h w : ℤ) (margin : ℚ) (i : ℕ),
      ((detect_blobs kps h w margin).get? i).map f =
        ((detectEntries kps h w margin).get? i).map Prod.snd := by
  rintro ⟨f, hf⟩
  have h1 := hf kpsPair 200 200 10 0
  have h2 := hf kpsSingle 200 200 10 0
  rw [show (detect_blobs kpsPair 200 200 10).get? 0 = some ⟨50, 50, 104/5⟩ from by with_unfolding_all decide,
    show ((detectEntries kpsPair 200 200 10).get? 0).map Prod.snd = some true from by with_unfolding_all decide]
    at h1
  rw [show (detect_blobs kpsSingle 200 200 10).get? 0 = some ⟨50, 50, 104/5⟩ from by with_unfolding_all decide,
    show ((detectEntries kpsSingle 200 200 10).get? 0).map Prod.snd = some false from by with_unfolding_all decide]
    at h2
  simp only [Option.map_some', Option.some.injEq] at h1 h2
  rw [h1] at h2
  exact absurd h2 (by decide)

/-- C2 (amended).  Classification decorates rather than discards and preserves
order — each edge-filtered candidate becomes exactly one returned record, in
input order — but the returned records hold only the centre point and the size;
the `isSizeOutlier` decision is consumed as a drawing colour and the
`isLikelyOverlap` decision as an operator message, neither stored in the
records. -/
theorem c2_amended (kps : List KeyPoint) (h w : ℤ) (margin : ℚ) :
    detect_blobs kps h w margin =
      (kps.filter (fun kp => edgePass kp h w margin)).map blobOf := by
  rw [detect_blobs, detectEntries, detectLoop_eq, List.map_map]
  rfl

/-- A single keypoint at x = 189.9 with radius 0.9 (size 1.8): truncation
gives `x = 189`, `r = 0`, which passes the margin-10 edge test in a 200×200
frame, although the exact bounding circle reaches 190.8 > 190. -/
def kpsSliver : List KeyPoint := [⟨1899/10, 50, 9/5⟩]

set_option maxRecDepth 40000 in
/-- C3 (counterexample).  The claim asserts the inequalities of the retained
candidate's exact centre and radius.  The filter tests the truncated values,
and the truncation slack lets a retained candidate's exact bounding circle
cross the margin: the keypoint of `kpsSliver` is retained (margin 10, 200×200)
while `center.x + radius = 190.8 > 200 - 10`. -/
theorem c3_counterexample :
    (detect_blobs kpsSliver 200 200 10).get? 0 = some (blobOf ⟨1899/10, 50, 9/5⟩) ∧
    ¬ ((blobOf (⟨1899/10, 50, 9/5⟩ : KeyPoint)).ptx +
        (blobOf (⟨1899/10, 50, 9/5⟩ : KeyPoint)).size / 2 ≤ (200 : ℚ) - 10) := by
  with_unfolding_all decide

/-- C3 (amended).  Every blob record retained by the edge filter satisfies
the four non-strict margin inequalities on the values the filter actually
tests — the truncated `x = int(pt.x)`, `y = int(pt.y)`, `r = int(size / 2)` —
rather than on the exact centre and radius (which can exceed the margin by
the truncation slack); and a candidate whose bounding circle touches `x = 0`
(centre x equal to its radius) fails the edge test with margin 10 — the test
does not consult the outlier statistics at all. -/
theorem c3_edge_filter :
    (∀ (kps : List KeyPoint) (h w : ℤ) (margin : ℚ), ∀ b ∈ detect_blobs kps h w margin,
      margin ≤ ((pyInt b.ptx - pyInt (b.size / 2) : ℤ) : ℚ) ∧
      ((pyInt b.ptx + pyInt (b.size / 2) : ℤ) : ℚ) ≤ (w : ℚ) - margin ∧
      margin ≤ ((pyInt b.pty - pyInt (b.size / 2) : ℤ) : ℚ) ∧
      ((pyInt b.pty + pyInt (b.size / 2) : ℤ) : ℚ) ≤ (h : ℚ) - margin) ∧
    (∀ (kp : KeyPoint) (h w : ℤ), kp.ptx - kp.size / 2 = 0 →
      edgePass kp h w 10 = false) := by
  constructor
  · intro kps h w margin b hb
    obtain ⟨e, he, hbe⟩ := List.mem_map.mp hb
    obtain ⟨kp, _, hpass, rfl⟩ := mem_detectEntries kps h w margin e he
    subst hbe
    simp only [edgePass, Bool.and_eq_true, decide_eq_true_eq] at hpass
    obtain ⟨⟨⟨h1, h2⟩, h3⟩, h4⟩ := hpass
    exact ⟨le_of_lt h1, le_of_lt h2, le_of_lt h3, le_of_lt h4⟩
  · intro kp h w hx
    have hpt : kp.ptx = kp.size / 2 := by linarith
    have h0 : ((pyInt kp.ptx - pyInt (kp.size / 2) : ℤ) : ℚ) = 0 := by
      rw [hpt]
      simp
    rw [edgePass, h0]
    norm_num

/-- The returned record of the central radius-40 blob of the spec scenario. -/
def bCenter : Blob := ⟨100, 100, 80⟩

/-- A keypoint whose bounding circle touches `x = 0`: centre x 10, radius 10. -/
def kpTouch : KeyPoint := ⟨10, 50, 20⟩

/-- Witness for C3: the retained central blob of the spec scenario satisfies
the margin inequalities, and the circle touching `x = 0` is rejected. -/
theorem c3_edge_filter_witness :
    ((5 : ℚ) ≤ ((pyInt bCenter.ptx - pyInt (bCenter.size / 2) : ℤ) : ℚ) ∧
     ((pyInt bCenter.ptx + pyInt (bCenter.size / 2) : ℤ) : ℚ) ≤ ((200 : ℤ) : ℚ) - 5 ∧
     (5 : ℚ) ≤ ((pyInt bCenter.pty - pyInt (bCenter.size / 2) : ℤ) : ℚ) ∧
     ((pyInt bCenter.pty + pyInt (bCenter.size / 2) : ℤ) : ℚ) ≤ ((200 : ℤ) : ℚ) - 5) ∧
    edgePass kpTouch 200 200 10 = false :=
  ⟨c3_edge_filter.1 kpsScene 200 200 5 bCenter (by with_unfolding_all decide),
   c3_edge_filter.2 kpTouch 200 200 (by with_unfolding_all decide)⟩

/-- C4 (code bug).  With a configuration that lacks `blob_min_area`, nothing
fails at construction time: the configuration lookup returns `None` with no
validation (`main` reads only `expected_count`, with a default), and the error
only surfaces inside `detect_blobs` on the first scan, when assigning `None`
to the detector's float field `minArea` raises a bare `TypeError` — not a
fail-fast, descriptive construction-time error. -/
theorem c4_missing_min_area :
    main_setup [] = 0 ∧ cfgGet [] "blob_min_area" = none ∧
    ∀ (detector : BlobParams → List KeyPoint) (h w : ℤ),
      detect_blobs_run detector h w [] = .error .typeError :=
  ⟨rfl, rfl, fun _ _ _ => rfl⟩

/-- C5 (counterexample).  In the spec's scenario — four radius-10 blobs and a
central radius-40 blob, 200×200 frame, margin 5 — the radius-40 blob is NOT
flagged as a size outlier: the mean radius is 16 and the population variance
144, so its deviation 24 equals exactly 2 standard deviations and the strict
comparison fails. -/
theorem c5_counterexample :
    (detectEntries kpsScene 200 200 5).get? 0 = some (blobOf ⟨100, 100, 80⟩, false) := by
  with_unfolding_all decide

set_option maxRecDepth 40000 in
/-- C5 (amended).  In that scenario no blob at all is flagged: all five
candidates are retained, the statistics are mean 16 and variance 144, and the
radius-40 deviation satisfies `(40 - 16)^2 = 4 * 144` — exactly 2 standard
deviations, not beyond them. -/
theorem c5_amended :
    detectEntries kpsScene 200 200 5 =
      [(blobOf ⟨100, 100, 80⟩, false), (blobOf ⟨30, 30, 20⟩, false),
       (blobOf ⟨30, 170, 20⟩, false), (blobOf ⟨170, 30, 20⟩, false),
       (blobOf ⟨170, 170, 20⟩, false)] ∧
    popMean (radiiOf kpsScene) = 16 ∧ popVar (radiiOf kpsScene) = 144 ∧
    ((40 : ℚ) - popMean (radiiOf kpsScene)) ^ 2 = 4 * popVar (radiiOf kpsScene) := by
  with_unfolding_all decide

/-- C6 (counterexample).  The claim reads the outlier test on the candidate's
radius.  On `kpsClose` (radii 5.4 and 5.6, mean 5.5, standard deviation 0.1)
the first candidate IS flagged — the code truncates to `r = 5`, giving
deviation 0.5 — although its radius 5.4 deviates by only 0.1 ≤ 2 × 0.1, so
"flagged iff |radius − meanRadius| > 2·stdRadius" fails as stated. -/
theorem c6_counterexample :
    (detectEntries kpsClose 200 200 10).get? 0 = some (blobOf ⟨50, 50, 54/5⟩, true) ∧
    (0 : ℚ) ≤ 1/10 ∧ (1/10 : ℚ) ^ 2 = popVar (radiiOf kpsClose) ∧
    ¬ (|(54/5 : ℚ) / 2 - popMean (radiiOf kpsClose)| > 2 * (1/10)) := by
  with_unfolding_all decide

/-- C6 (amended).  A retained candidate is flagged iff `stdRadius > 0` and
`|r − meanRadius| > 2 × stdRadius` where `r = int(size / 2)` is the truncated
radius the code compares (the mean and standard deviation come from the
untruncated radii); consequently, when all radii are identical the standard
deviation is zero and no candidate is flagged. -/
theorem c6_amended :
    (∀ (kps : List KeyPoint) (h w : ℤ) (margin : ℚ) (s : ℚ), 0 ≤ s →
      s ^ 2 = popVar (radiiOf kps) →
      ∀ e ∈ detectEntries kps h w margin,
        (e.2 = true ↔
          0 < s ∧ |((pyInt (e.1.size / 2) : ℤ) : ℚ) - popMean (radiiOf kps)| > 2 * s)) ∧
    (∀ (kps : List KeyPoint) (h w : ℤ) (margin : ℚ),
      (∀ r₁ ∈ radiiOf kps, ∀ r₂ ∈ radiiOf kps, r₁ = r₂) →
      ∀ e ∈ detectEntries kps h w margin, e.2 = false) := by
  constructor
  · intro kps h w margin s hs hsv e he
    obtain ⟨kp, _, _, rfl⟩ := mem_detectEntries kps h w margin e he
    show sizeFlag kp (popMean (radiiOf kps)) (popVar (radiiOf kps)) = true ↔ _
    rw [sizeFlag]
    simp only [Bool.and_eq_true, decide_eq_true_eq]
    rw [← hsv]
    exact sq_flag_iff _ s hs
  · intro kps h w margin hconst e he
    obtain ⟨kp, _, _, rfl⟩ := mem_detectEntries kps h w margin e he
    have hv : popVar (radiiOf kps) = 0 := popVar_const _ hconst
    show sizeFlag kp (popMean (radiiOf kps)) (popVar (radiiOf kps)) = false
    simp [sizeFlag, hv]

/-- Witness for the amended C6: on `kpsSpread` (radii 1 and 7, mean 4,
variance 9 = 3²) the flag equivalence holds at the first retained entry, and
on `kpsEqual` (two identical radii) the zero-deviation guard leaves the first
retained entry unflagged. -/
theorem c6_amended_witness :
    (((blobOf ⟨50, 50, 2⟩,
        sizeFlag ⟨50, 50, 2⟩ (popMean (radiiOf kpsSpread)) (popVar (radiiOf kpsSpread))) :
          Blob × Bool).2 = true ↔
      0 < (3 : ℚ) ∧
        |((pyInt (((blobOf (⟨50, 50, 2⟩ : KeyPoint)).size) / 2) : ℤ) : ℚ) -
          popMean (radiiOf kpsSpread)| > 2 * 3) ∧
    ((blobOf ⟨50, 50, 20⟩,
        sizeFlag ⟨50, 50, 20⟩ (popMean (radiiOf kpsEqual)) (popVar (radiiOf kpsEqual))) :
          Blob × Bool).2 = false :=
  ⟨c6_amended.1 kpsSpread 200 200 10 3 (by norm_num) (by with_unfolding_all decide) _
      (by with_unfolding_all decide),
   c6_amended.2 kpsEqual 200 200 10 (by with_unfolding_all decide) _
      (by with_unfolding_all decide)⟩

/-- C7 (counterexample).  The claim says exhaustion yields a distinct
"no frame" result and cancellation a distinct "cancelled" result.  Both paths
return the same value: with an exhausted source the loop returns `None`, and
with an out-of-focus frame plus an ESC key press it also returns `None` — the
two terminal outcomes are indistinguishable. -/
theorem c7_counterexample :
    wait_for_focus 9 [] [] = .ok none ∧
    wait_for_focus 9 [constImg2] [27] = .ok none ∧
    wait_for_focus 9 [] [] = wait_for_focus 9 [constImg2] [27] :=
  ⟨by with_unfolding_all rfl, by with_unfolding_all rfl, by with_unfolding_all rfl⟩

/-- C7 (amended).  `wait_for_focus` terminates in one of: success, returning
the FIRST frame whose verdict is in focus — every earlier acquired frame
evaluated to an out-of-focus verdict — annotated with the green status
overlay; a propagated evaluation error; or `None` — returned alike on source
exhaustion and on ESC cancellation, which are not distinguishable in the
result. -/
theorem c7_amended (threshold : ℚ) (frames : List Img) (keys : List ℕ) :
    wait_for_focus threshold frames keys = .ok none ∨
    (∃ e, wait_for_focus threshold frames keys = .error e) ∨
    (∃ i, ∃ hi : i < frames.length,
      (∃ v, is_camera_in_focus (frames.get ⟨i, hi⟩) threshold = .ok (true, v)) ∧
      (∀ g ∈ frames.take i, ∃ v, is_camera_in_focus g threshold = .ok (false, v)) ∧
      wait_for_focus threshold frames keys =
        .ok (some (putTextModel (frames.get ⟨i, hi⟩) [0, 255, 0]))) := by
  induction frames generalizing keys with
  | nil => exact Or.inl rfl
  | cons f fs ih =>
    cases hres : is_camera_in_focus f threshold with
    | error e =>
      exact Or.inr (Or.inl ⟨e, by simp [wait_for_focus, hres]⟩)
    | ok r =>
      obtain ⟨b, v⟩ := r
      cases b with
      | true =>
        refine Or.inr (Or.inr ⟨0, Nat.succ_pos fs.length, ⟨v, hres⟩, ?_, ?_⟩)
        · intro g hg
          exact absurd hg (by simp)
        · simp [wait_for_focus, hres]
      | false =>
        by_cases hk : keys.head?.getD 255 % 256 = 27
        · exact Or.inl (by simp [wait_for_focus, hres, hk])
        · have step : wait_for_focus threshold (f :: fs) keys =
              wait_for_focus threshold fs keys.tail := by
            simp [wait_for_focus, hres, hk]
          rcases ih keys.tail with hnone | ⟨e, he⟩ | ⟨i, hi, hfoc, hprev, heq⟩
          · exact Or.inl (step.trans hnone)
          · exact Or.inr (Or.inl ⟨e, step.trans he⟩)
          · refine Or.inr (Or.inr ⟨i + 1, Nat.succ_lt_succ hi, ?_, ?_, ?_⟩)
            · simpa using hfoc
            · intro g hg
              rw [List.take_succ_cons] at hg
              rcases List.mem_cons.mp hg with rfl | hg'
              · exact ⟨v, hres⟩
              · exact hprev g hg'
            · rw [step, heq]
              simp

set_option maxRecDepth 400000 in
set_option maxHeartbeats 1000000 in
/-- C8 (counterexample).  The claim says no core operation changes a frame's
pixel contents.  On a sharp frame, `wait_for_focus` returns the frame with the
status text written into its pixel buffer — a different grid from the acquired
frame (`cv2.putText` draws in place). -/
theorem c8_counterexample :
    wait_for_focus 9 [sharpImg] [] = .ok (some (putTextModel sharpImg [0, 255, 0])) ∧
    putTextModel sharpImg [0, 255, 0] ≠ sharpImg :=
  ⟨by with_unfolding_all rfl, by with_unfolding_all decide⟩

/-- C8 (amended).  `is_camera_in_focus` and `detect_blobs` only derive new
grids, but `wait_for_focus` overwrites the status overlay into each acquired
frame before displaying it: every successfully returned frame is an acquired
in-focus frame with the overlay written into it, not the unmodified capture. -/
theorem c8_amended (threshold : ℚ) (frames : List Img) (keys : List ℕ) (f : Img)
    (hf : wait_for_focus threshold frames keys = .ok (some f)) :
    ∃ g ∈ frames, (∃ v, is_camera_in_focus g threshold = .ok (true, v)) ∧
      f = putTextModel g [0, 255, 0] := by
  induction frames generalizing keys with
  | nil => exact absurd hf (by simp [wait_for_focus])
  | cons g fs ih =>
    cases hres : is_camera_in_focus g threshold with
    | error e =>
      rw [show wait_for_focus threshold (g :: fs) keys = .error e from by
        simp [wait_for_focus, hres]] at hf
      exact absurd hf (by simp)
    | ok r =>
      obtain ⟨b, v⟩ := r
      cases b with
      | true =>
        rw [show wait_for_focus threshold (g :: fs) keys =
            .ok (some (putTextModel g [0, 255, 0])) from by simp [wait_for_focus, hres]] at hf
        have : putTextModel g [0, 255, 0] = f := by
          simpa using hf
        exact ⟨g, List.mem_cons_self g fs, ⟨v, hres⟩, this.symm⟩
      | false =>
        by_cases hk : keys.head?.getD 255 % 256 = 27
        · rw [show wait_for_focus threshold (g :: fs) keys = .ok none from by
            simp [wait_for_focus, hres, hk]] at hf
          exact absurd hf (by simp)
        · rw [show wait_for_focus threshold (g :: fs) keys =
              wait_for_focus threshold fs keys.tail from by simp [wait_for_focus, hres, hk]] at hf
          obtain ⟨g', hg', hv', hfg⟩ := ih keys.tail hf
          exact ⟨g', List.mem_cons_of_mem g hg', hv', hfg⟩

set_option maxRecDepth 400000 in
set_option maxHeartbeats 1000000 in
/-- Witness for the amended C8: the frame returned for the one-frame sharp
source is the acquired frame with the overlay written into it. -/
theorem c8_amended_witness :
    ∃ g ∈ [sharpImg], (∃ v, is_camera_in_focus g 9 = .ok (true, v)) ∧
      putTextModel sharpImg [0, 255, 0] = putTextModel g [0, 255, 0] :=
  c8_amended 9 [sharpImg] [] (putTextModel sharpImg [0, 255, 0])
    (by with_unfolding_all rfl)

/-- C9 (counterexample).  The claim says evaluation completes for every frame,
single-channel frames included, converting "if not already" single-channel.
The code converts unconditionally: on an already single-channel frame
`cv2.cvtColor(..., COLOR_BGR2GRAY)` raises a channel-count error, and
`is_camera_in_focus` propagates it rather than completing. -/
theorem c9_counterexample :
    is_camera_in_focus oneChanImg 9 = .error .invalidChannels := by
  with_unfolding_all rfl

/-- C9 (amended).  For every nonempty 3- or 4-channel frame the evaluation
completes with the verdict `score > threshold` paired with the score (any
score is valid, including zero); an already single-channel frame instead
raises the conversion error. -/
theorem c9_amended (image : Img) (threshold : ℚ)
    (hch : imgChannels image = 3 ∨ imgChannels image = 4)
    (hrow : image.length ≠ 0) (hcol : (image.headD []).length ≠ 0) :
    ∃ v, is_camera_in_focus image threshold = .ok (decide (v > threshold), v) := by
  have hne : ¬ (image.length = 0 ∨ (image.headD []).length = 0) := by
    rintro (hz | hz)
    · exact hrow hz
    · exact hcol hz
  have hcv : cvtColorBGR2GRAY image = .ok (image.map (fun row => row.map bgr2grayPix)) := by
    rw [cvtColorBGR2GRAY, if_neg hne, if_pos hch]
  refine ⟨lapVar (image.map (fun row => row.map bgr2grayPix)), ?_⟩
  rw [is_camera_in_focus, hcv]

/-- Witness for the amended C9: the constant 3-channel frame evaluates to the
zero score with a "not in focus" verdict. -/
theorem c9_amended_witness :
    (∃ v, is_camera_in_focus constImg2 9 = .ok (decide (v > 9), v)) ∧
    is_camera_in_focus constImg2 9 = .ok (false, 0) :=
  ⟨c9_amended constImg2 9 (Or.inl (by with_unfolding_all decide))
      (by with_unfolding_all decide) (by with_unfolding_all decide),
   by with_unfolding_all rfl⟩

/-- C10 (confirmed).  The edge test and the flag comparison use the truncated
values while the statistics use the exact half-sizes: on `kpsPair` (sizes 20.8
and 21.2, mean radius 10.5, standard deviation 0.1) the first blob is flagged —
truncation gives `r = 10`, deviation 0.5 — although its exact radius 10.4
deviates by only 0.1 ≤ 2 × 0.1, so the flag differs from the untruncated
evaluation. -/
theorem c10_truncation :
    (detectEntries kpsPair 200 200 10).get? 0 = some (blobOf ⟨50, 50, 104/5⟩, true) ∧
    (0 : ℚ) ≤ 1/10 ∧ (1/10 : ℚ) ^ 2 = popVar (radiiOf kpsPair) ∧
    ¬ (|(104/5 : ℚ) / 2 - popMean (radiiOf kpsPair)| > 2 * (1/10)) := by
  with_unfolding_all decide

end TradeLogoVerifier
